import Mathlib

/-!
Verification of the ts-obsidian-log logging facade.

Shallow embedding of the repository's severity model and logger facade:
the file `src/lib/types.ts` (severity constants), `src/lib/log.internal.ts`
(rank table, gate, validation, notice-level normalization, settings and
plugin-name resolution, one-time debug warning) and `src/lib/log.ts`
(the Log class: gate, level normalization, console dispatch, notices).

Mutable references (the caller-owned settings record, Log instances) are
modelled by indices into an explicit store, threaded through each operation.
Console and notice side effects are modelled as values returned by the
embedded operations.
-/

namespace ObsidianLog

/-- The six canonical severity levels, in the order of the source array
`LOG_LEVELS = ["none", "error", "warn", "debug", "log", "info"]`
(src/lib/types.ts, src/lib/log.ts). -/
inductive LogLevel where
  | none
  | error
  | warn
  | debug
  | log
  | info
deriving DecidableEq, Repr, Fintype

/-- String tag of a severity, as stored in settings / passed at runtime. -/
def LogLevel.tag : LogLevel → String
  | .none => "none"
  | .error => "error"
  | .warn => "warn"
  | .debug => "debug"
  | .log => "log"
  | .info => "info"

/-- The list of the six canonical severity strings, in source order
(`LOG_LEVELS` in src/lib/log.ts, `Object.values(LogLevels)` in types.ts). -/
def LOG_LEVELS : List String := ["none", "error", "warn", "debug", "log", "info"]

namespace Internal

/-- `LOG_LEVEL_ORDER` of src/lib/log.internal.ts: each level mapped to
`index * 10` in the order of `LogLevels` (none=0, error=10, warn=20,
debug=30, log=40, info=50). -/
def LOG_LEVEL_ORDER : LogLevel → Nat
  | .none => 0
  | .error => 10
  | .warn => 20
  | .debug => 30
  | .log => 40
  | .info => 50

/-- `isEnabled` of src/lib/log.internal.ts:
`if (setlvl === NONE) return false; else return ORDER[msglvl] <= ORDER[setlvl]`. -/
def isEnabled (msglvl setlvl : LogLevel) : Bool :=
  if setlvl = LogLevel.none then false
  else decide (LOG_LEVEL_ORDER msglvl ≤ LOG_LEVEL_ORDER setlvl)

/-- `isLogLevel` of src/lib/log.internal.ts: membership of a string in the
set of the six canonical level strings (non-string inputs are always
invalid and are not representable here). -/
def isLogLevel (value : String) : Bool :=
  value ∈ LOG_LEVELS

end Internal

namespace LogTs

/-- `LOG_LEVEL_ORDER` of src/lib/log.ts: same table, built by `reduce`
over `LOG_LEVELS` with `index * 10`. -/
def LOG_LEVEL_ORDER : LogLevel → Nat
  | .none => 0
  | .error => 10
  | .warn => 20
  | .debug => 30
  | .log => 40
  | .info => 50

/-- `isEnabled` of src/lib/log.ts: plain rank comparison, with no explicit
guard for a configured level of `none`. -/
def isEnabled (msglvl setlvl : LogLevel) : Bool :=
  decide (LOG_LEVEL_ORDER msglvl ≤ LOG_LEVEL_ORDER setlvl)

end LogTs

/-- A raised JavaScript `Error` value, abstracted to what the logger uses of
it: its identity as a non-string value and its `toString()` rendering. -/
structure JSError where
  toStr : String
deriving DecidableEq, Repr

/-- A heterogeneous value passed to a console sink (the logger forwards
strings and raised error values). -/
inductive LogValue where
  | str (s : String)
  | errVal (e : JSError)
deriving DecidableEq, Repr

/-- The `level` argument of `Log.notice` / `getLogLevel`: either a raised
`Error` value or a string (any string: a severity tag, "success", or an
unrecognized value). `undefined` is modelled as `Option.none` at use sites. -/
inductive NoticeArg where
  | errArg (e : JSError)
  | strArg (s : String)
deriving DecidableEq, Repr

namespace Internal

/-- `getLogLevel` of src/lib/log.internal.ts:
Error or "error" → error; "success" or "debug" → debug; "warn" or "log" →
that same level; anything else (undefined, "info", unrecognized) → info. -/
def getLogLevel (level : Option NoticeArg) : LogLevel :=
  match level with
  | some (.errArg _) => LogLevel.error
  | some (.strArg s) =>
    if s = "error" then LogLevel.error
    else if s = "success" ∨ s = "debug" then LogLevel.debug
    else if s = "warn" then LogLevel.warn
    else if s = "log" then LogLevel.log
    else LogLevel.info
  | Option.none => LogLevel.info

end Internal

namespace LogTs

/-- `getLogLevel` of src/lib/log.ts:
Error or "error" → error; "warn" → warn; "success" or "debug" → debug;
"log" → log; anything else (undefined, "info", unrecognized) → info. -/
def getLogLevel (level : Option NoticeArg) : LogLevel :=
  match level with
  | some (.errArg _) => LogLevel.error
  | some (.strArg s) =>
    if s = "error" then LogLevel.error
    else if s = "warn" then LogLevel.warn
    else if s = "success" ∨ s = "debug" then LogLevel.debug
    else if s = "log" then LogLevel.log
    else LogLevel.info
  | Option.none => LogLevel.info

end LogTs

/-- Claim C3: `getLogLevel` is total, never returns `none`, both variants
agree, and the result follows the fixed precedence: an Error value or
"error" map to error; "success" or "debug" map to debug; "warn" to warn;
"log" to log; anything else (undefined, "info", unrecognized) to info.
Each of the five possible results is attained. -/
theorem c3_getLogLevel_total :
    (∀ i : Option NoticeArg,
       Internal.getLogLevel i = LogTs.getLogLevel i ∧
       Internal.getLogLevel i ∈
         [LogLevel.error, LogLevel.warn, LogLevel.debug, LogLevel.log, LogLevel.info] ∧
       Internal.getLogLevel i =
         (match i with
          | some (.errArg _) => LogLevel.error
          | some (.strArg s) =>
            if s = "error" then LogLevel.error
            else if s = "success" ∨ s = "debug" then LogLevel.debug
            else if s = "warn" then LogLevel.warn
            else if s = "log" then LogLevel.log
            else LogLevel.info
          | Option.none => LogLevel.info)) ∧
    Internal.getLogLevel (some (NoticeArg.strArg "error")) = LogLevel.error ∧
    Internal.getLogLevel (some (NoticeArg.strArg "warn")) = LogLevel.warn ∧
    Internal.getLogLevel (some (NoticeArg.strArg "success")) = LogLevel.debug ∧
    Internal.getLogLevel (some (NoticeArg.strArg "log")) = LogLevel.log ∧
    Internal.getLogLevel Option.none = LogLevel.info := by
  refine ⟨?_, by decide, by decide, by decide, by decide, by decide⟩
  intro i
  match i with
  | Option.none => exact ⟨rfl, by decide, rfl⟩
  | some (.errArg e) => exact ⟨rfl, by simp [Internal.getLogLevel], rfl⟩
  | some (.strArg s) =>
    refine ⟨?_, ?_, rfl⟩ <;>
      simp only [Internal.getLogLevel, LogTs.getLogLevel] <;>
      split_ifs with h1 h2 h3 h4 <;> simp_all

/-- Claim-side rank: the position of a severity in the claimed strict
order none < error < warn < debug < log < info (spec section 3). -/
def specRank : LogLevel → Nat
  | .none => 0
  | .error => 1
  | .warn => 2
  | .debug => 3
  | .log => 4
  | .info => 5

/-- Claim C2: for every message severity among the five non-none levels and
every configured severity among the six levels, the internal `isEnabled`
returns false when the configured severity is `none`, and otherwise returns
`rank(messageSeverity) <= rank(configuredSeverity)` for the strictly
increasing position ranking. -/
theorem c2_isEnabled_gate (m c : LogLevel) (hm : m ≠ LogLevel.none) :
    Internal.isEnabled m c =
      (if c = LogLevel.none then false else decide (specRank m ≤ specRank c)) := by
  revert hm
  cases m <;> cases c <;> decide

/-- Witness for claim C2 at message severity debug, configured severity warn. -/
theorem c2_isEnabled_gate_witness :
    LogLevel.debug ≠ LogLevel.none ∧
      Internal.isEnabled LogLevel.debug LogLevel.warn =
        (if LogLevel.warn = LogLevel.none then false
         else decide (specRank LogLevel.debug ≤ specRank LogLevel.warn)) :=
  ⟨by decide, c2_isEnabled_gate LogLevel.debug LogLevel.warn (by decide)⟩

/-- Claim C10: the `isEnabled` of src/lib/log.ts (no none-threshold guard)
and the `isEnabled` of src/lib/log.internal.ts (explicit none guard) agree
on every message severity among the five non-none levels paired with every
configured severity among the six levels. -/
theorem c10_isEnabled_equiv (m c : LogLevel) (hm : m ≠ LogLevel.none) :
    LogTs.isEnabled m c = Internal.isEnabled m c := by
  revert hm
  cases m <;> cases c <;> decide

/-- Witness for claim C10 at message severity error, configured severity none. -/
theorem c10_isEnabled_equiv_witness :
    LogLevel.error ≠ LogLevel.none ∧
      LogTs.isEnabled LogLevel.error LogLevel.none =
        Internal.isEnabled LogLevel.error LogLevel.none :=
  ⟨by decide, c10_isEnabled_equiv LogLevel.error LogLevel.none (by decide)⟩

/-- One invocation of a console sink: the sink selected by a severity
(`CONSOLE_FN[msglvl]` in src/lib/log.ts) and the argument list passed to it. -/
structure ConsoleEvent where
  channel : LogLevel
  args : List LogValue
deriving DecidableEq, Repr

/-- An Obsidian notice as observed through the mocked collaborator: the text
passed to the `Notice` constructor and the style classes added to its
content element (`messageEl.addClass`). -/
structure NoticeObj where
  text : String
  classes : List String
deriving DecidableEq, Repr

/-- The `level` parameter of `Log.note` in src/lib/log.ts:
`ExclusiveLogLevel | "success"`. -/
inductive NoteLevel where
  | lvl (l : LogLevel)
  | success
deriving DecidableEq, Repr

namespace LogTs

/-- A `Log` instance of src/lib/log.ts, reduced to the data its methods
read at call time: the bound plugin name and the current value of the
referenced settings record's `loglevel` field. -/
structure Log where
  pluginname : String
  loglevel : LogLevel
deriving DecidableEq, Repr

/-- `Log.logger` of src/lib/log.ts: if the message level passes the gate
against the current configured level, invoke the console sink of that level
with the plugin name followed by the caller-supplied values; else no output. -/
def Log.logger (l : Log) (msglvl : LogLevel) (args : List LogValue) : List ConsoleEvent :=
  if isEnabled msglvl l.loglevel then [⟨msglvl, LogValue.str l.pluginname :: args⟩]
  else []

/-- `Log.note` of src/lib/log.ts: construct a Notice with the message text
and add the style class selected by the level (error, warn, info, success);
for the neutral `log` level and any other level the class is the empty
string and nothing is added. -/
def Log.note (message : String) (level : NoteLevel) : NoticeObj :=
  let cssClass :=
    match level with
    | .lvl .error => "notice-error"
    | .lvl .warn => "notice-warn"
    | .lvl .info => "notice-info"
    | .success => "notice-success"
    | .lvl .log => ""
    | _ => ""
  ⟨message, if cssClass = "" then [] else [cssClass]⟩

/-- `Log.debug` of src/lib/log.ts. -/
def Log.debug (l : Log) (data : List LogValue) : List ConsoleEvent :=
  l.logger LogLevel.debug data

/-- `Log.log` of src/lib/log.ts. -/
def Log.log (l : Log) (data : List LogValue) : List ConsoleEvent :=
  l.logger LogLevel.log data

/-- `Log.info` of src/lib/log.ts. -/
def Log.info (l : Log) (data : List LogValue) : List ConsoleEvent :=
  l.logger LogLevel.info data

/-- `Log.warn` of src/lib/log.ts. -/
def Log.warn (l : Log) (data : List LogValue) : List ConsoleEvent :=
  l.logger LogLevel.warn data

/-- `Log.error` of src/lib/log.ts: forwards the extra values followed by the
error value to `logger` at error level (the trailing bare `console.log`
expression in the source performs no call and has no effect). -/
def Log.error (l : Log) (e : JSError) (data : List LogValue) : List ConsoleEvent :=
  l.logger LogLevel.error (data ++ [LogValue.errVal e])

/-- `Log.notice` of src/lib/log.ts: normalize the level, log the message
(appending the raised error value when the level is one), then create the
notice: an Error level yields text `message + "\r\n" + error.toString()`
with error style; "warn", "success", "log" yield their styles; "debug"
returns before any notice is created; anything else yields info style. -/
def Log.notice (l : Log) (message : String) (level : Option NoticeArg) :
    List ConsoleEvent × List NoticeObj :=
  let logLevel := getLogLevel level
  let events :=
    match level with
    | some (.errArg e) => l.logger logLevel [LogValue.str message, LogValue.errVal e]
    | _ => l.logger logLevel [LogValue.str message]
  let notices :=
    match level with
    | some (.errArg e) =>
        [Log.note (message ++ "\r\n" ++ e.toStr) (NoteLevel.lvl LogLevel.error)]
    | some (.strArg s) =>
        if s = "warn" then [Log.note message (NoteLevel.lvl LogLevel.warn)]
        else if s = "success" then [Log.note message NoteLevel.success]
        else if s = "debug" then []
        else if s = "log" then [Log.note message (NoteLevel.lvl LogLevel.log)]
        else [Log.note message (NoteLevel.lvl LogLevel.info)]
    | Option.none => [Log.note message (NoteLevel.lvl LogLevel.info)]
  (events, notices)

end LogTs

/-- Counterexample to claim C4: at message "m" and a raised error whose
string form is "Error: boom", the notice created by `Log.notice` has text
"m" ++ "\r\n" ++ "Error: boom", which differs from the claimed
"m" ++ "\n" ++ "Error: boom". -/
theorem c4_counterexample :
    ((LogTs.Log.mk "P" LogLevel.info).notice "m"
        (some (NoticeArg.errArg ⟨"Error: boom"⟩))).2 =
      [⟨"m" ++ "\r\n" ++ "Error: boom", ["notice-error"]⟩] ∧
    ("m" ++ "\r\n" ++ "Error: boom" : String) ≠ "m" ++ "\n" ++ "Error: boom" := by
  constructor
  · rfl
  · decide

/-- Claim C4 as amended: for every message m and raised error value e,
`notice(m, e)` invokes the console-error sink with (displayName, m, e) when
the configured level enables error severity, and creates a notice whose
text is m concatenated with the line break "\r\n" (not "\n") and the
error's string form, with the error style class attached. -/
theorem c4_notice_error (name m : String) (e : JSError) (lvl : LogLevel)
    (h : LogTs.isEnabled LogLevel.error lvl = true) :
    ((LogTs.Log.mk name lvl).notice m (some (NoticeArg.errArg e))).1 =
      [⟨LogLevel.error, [LogValue.str name, LogValue.str m, LogValue.errVal e]⟩] ∧
    ((LogTs.Log.mk name lvl).notice m (some (NoticeArg.errArg e))).2 =
      [⟨m ++ "\r\n" ++ e.toStr, ["notice-error"]⟩] := by
  constructor
  · simp [LogTs.Log.notice, LogTs.Log.logger, LogTs.getLogLevel, h]
  · rfl

/-- Witness for claim C4 at name "P", message "m", error "Error: boom",
configured level info. -/
theorem c4_notice_error_witness :
    LogTs.isEnabled LogLevel.error LogLevel.info = true ∧
    (((LogTs.Log.mk "P" LogLevel.info).notice "m"
         (some (NoticeArg.errArg ⟨"Error: boom"⟩))).1 =
       [⟨LogLevel.error,
         [LogValue.str "P", LogValue.str "m", LogValue.errVal ⟨"Error: boom"⟩]⟩] ∧
     ((LogTs.Log.mk "P" LogLevel.info).notice "m"
         (some (NoticeArg.errArg ⟨"Error: boom"⟩))).2 =
       [⟨"m" ++ "\r\n" ++ "Error: boom", ["notice-error"]⟩]) :=
  ⟨by decide, c4_notice_error "P" "m" ⟨"Error: boom"⟩ LogLevel.info (by decide)⟩

/-- Claim C5: `notice(m, "debug")` creates no notice object, while every
other level input (an Error value or any other string, or undefined)
creates exactly one notice; the count does not depend on the configured
level, while the console emission in the same call happens exactly when the
normalized level passes the gate. -/
theorem c5_notice_creation (name m : String) (lvl : LogLevel) (level : Option NoticeArg) :
    ((LogTs.Log.mk name lvl).notice m level).2.length =
      (if level = some (NoticeArg.strArg "debug") then 0 else 1) ∧
    ((LogTs.Log.mk name lvl).notice m level).1.length =
      (if LogTs.isEnabled (LogTs.getLogLevel level) lvl then 1 else 0) := by
  constructor
  · match level with
    | Option.none => simp [LogTs.Log.notice]
    | some (.errArg e) => simp [LogTs.Log.notice]
    | some (.strArg s) =>
      simp only [LogTs.Log.notice, Option.some.injEq, NoticeArg.strArg.injEq]
      split_ifs <;> simp_all
  · match level with
    | Option.none =>
      simp only [LogTs.Log.notice, LogTs.Log.logger]
      split_ifs <;> simp
    | some (.errArg e) =>
      simp only [LogTs.Log.notice, LogTs.Log.logger]
      split_ifs <;> simp
    | some (.strArg s) =>
      simp only [LogTs.Log.notice, LogTs.Log.logger]
      split_ifs <;> simp

/-- Claim C8: for every error value e and every list of extra values vs,
`error(e, ...vs)` with a configured level that enables error severity
invokes the console-error sink with the display name first, then the extra
values, then the error value last. -/
theorem c8_error_arg_order (name : String) (lvl : LogLevel) (e : JSError)
    (vs : List LogValue) (h : LogTs.isEnabled LogLevel.error lvl = true) :
    (LogTs.Log.mk name lvl).error e vs =
      [⟨LogLevel.error, LogValue.str name :: (vs ++ [LogValue.errVal e])⟩] := by
  simp [LogTs.Log.error, LogTs.Log.logger, h]

/-- Witness for claim C8 at name "P", level warn, one extra value. -/
theorem c8_error_arg_order_witness :
    LogTs.isEnabled LogLevel.error LogLevel.warn = true ∧
    (LogTs.Log.mk "P" LogLevel.warn).error ⟨"Error: boom"⟩ [LogValue.str "failed"] =
      [⟨LogLevel.error,
        LogValue.str "P" :: ([LogValue.str "failed"] ++ [LogValue.errVal ⟨"Error: boom"⟩])⟩] :=
  ⟨by decide,
   c8_error_arg_order "P" LogLevel.warn ⟨"Error: boom"⟩ [LogValue.str "failed"] (by decide)⟩

/-- The caller-owned settings record `{ loglevel }` of src/lib/types.ts.
The field is a raw string: external code may have stored any value there. -/
structure LogSettingsRec where
  loglevel : String
deriving DecidableEq, Repr, Inhabited

namespace Internal

/-- `resolveSettings` of src/lib/log.internal.ts, with reference semantics
made explicit by a store of settings records addressed by index. If no
record is supplied, a fresh record with loglevel "info" is appended and its
index returned; if the supplied record's loglevel is not a valid level, the
field of that very record is overwritten with "info" and the same index is
returned; a valid record is returned untouched. Always returns, never fails. -/
def resolveSettings (store : List LogSettingsRec) (r : Option Nat) :
    List LogSettingsRec × Nat :=
  match r with
  | Option.none => (store ++ [⟨"info"⟩], store.length)
  | some i =>
    match store[i]? with
    | some s =>
      if isLogLevel s.loglevel then (store, i)
      else (store.set i ⟨"info"⟩, i)
    | Option.none => (store, i)

/-- `resolvePluginName` of src/lib/log.internal.ts. The first argument is
the explicit name (`Option.none` for undefined); JavaScript truthiness makes
an empty explicit string fall through. The second argument is the build-time
injected `__PLUGIN_NAME__` (`Option.none` when not injected): it is returned
whenever it is defined, with no emptiness test (`typeof x !== "undefined"`).
Otherwise the literal "unknown-plugin" is returned. -/
def resolvePluginName (pluginname : Option String) (injectedName : Option String) : String :=
  if pluginname.getD "" ≠ "" then pluginname.getD ""
  else
    match injectedName with
    | some p => p
    | Option.none => "unknown-plugin"

end Internal

/-- Claim C7: settings resolution at initialization: an omitted settings
object yields a fresh record with level info at a fresh index; a supplied
record with an invalid level has that very record's field mutated to "info"
in place (same index, records at other indices untouched); a supplied
record with a valid level is used unchanged. The operation always returns
an index, so invalidity is never surfaced as a failure. -/
theorem c7_resolveSettings (store : List LogSettingsRec) (i : Nat) (s : LogSettingsRec) :
    Internal.resolveSettings store Option.none = (store ++ [⟨"info"⟩], store.length) ∧
    (store[i]? = some s → Internal.isLogLevel s.loglevel = false →
       Internal.resolveSettings store (some i) = (store.set i ⟨"info"⟩, i)) ∧
    (store[i]? = some s → Internal.isLogLevel s.loglevel = true →
       Internal.resolveSettings store (some i) = (store, i)) := by
  refine ⟨rfl, ?_, ?_⟩ <;> intro hget hvalid <;>
    simp [Internal.resolveSettings, hget, hvalid]

/-- Witness for claim C7: a one-record store with the invalid level "bogus"
is mutated in place to "info"; a one-record store with valid level "log" is
returned unchanged. -/
theorem c7_resolveSettings_witness :
    ([(⟨"bogus"⟩ : LogSettingsRec)][0]? = some ⟨"bogus"⟩ ∧
     Internal.isLogLevel "bogus" = false ∧
     Internal.resolveSettings [⟨"bogus"⟩] (some 0) =
       ([(⟨"bogus"⟩ : LogSettingsRec)].set 0 ⟨"info"⟩, 0)) ∧
    ([(⟨"log"⟩ : LogSettingsRec)][0]? = some ⟨"log"⟩ ∧
     Internal.isLogLevel "log" = true ∧
     Internal.resolveSettings [⟨"log"⟩] (some 0) = ([⟨"log"⟩], 0)) :=
  ⟨⟨by decide, by decide,
    (c7_resolveSettings [⟨"bogus"⟩] 0 ⟨"bogus"⟩).2.1 (by decide) (by decide)⟩,
   ⟨by decide, by decide,
    (c7_resolveSettings [⟨"log"⟩] 0 ⟨"log"⟩).2.2 (by decide) (by decide)⟩⟩

/-- Counterexample to claim C9: with no explicit name and a build-time
fallback that is defined but empty, `resolvePluginName` returns the empty
string rather than skipping the empty fallback in favor of the literal
"unknown-plugin" as the claim requires. -/
theorem c9_counterexample :
    Internal.resolvePluginName Option.none (some "") = "" ∧
    ("" : String) ≠ "unknown-plugin" := by
  constructor
  · rfl
  · decide

/-- Claim C9 as amended: an explicit name is used when non-empty; when the
explicit name is absent or empty, the build-time fallback is used whenever
it is defined, even if it is the empty string; the literal "unknown-plugin"
is used only when the build-time fallback is undefined. -/
theorem c9_resolvePluginName (n i : Option String) :
    (∀ s, n = some s → s ≠ "" → Internal.resolvePluginName n i = s) ∧
    ((n = Option.none ∨ n = some "") →
       ∀ p, i = some p → Internal.resolvePluginName n i = p) ∧
    ((n = Option.none ∨ n = some "") → i = Option.none →
       Internal.resolvePluginName n i = "unknown-plugin") := by
  refine ⟨?_, ?_, ?_⟩
  · intro s hn hs
    subst hn
    simp [Internal.resolvePluginName, hs]
  · intro hn p hi
    subst hi
    rcases hn with hn | hn <;> subst hn <;> simp [Internal.resolvePluginName]
  · intro hn hi
    subst hi
    rcases hn with hn | hn <;> subst hn <;> simp [Internal.resolvePluginName]

/-- Witness for claim C9: a non-empty explicit name wins; an empty explicit
name with a defined fallback yields the fallback; absent name and fallback
yield "unknown-plugin". -/
theorem c9_resolvePluginName_witness :
    Internal.resolvePluginName (some "my-plugin") (some "injected") = "my-plugin" ∧
    Internal.resolvePluginName (some "") (some "injected") = "injected" ∧
    Internal.resolvePluginName Option.none Option.none = "unknown-plugin" :=
  ⟨(c9_resolvePluginName (some "my-plugin") (some "injected")).1 "my-plugin" rfl (by decide),
   (c9_resolvePluginName (some "") (some "injected")).2.1 (Or.inr rfl) "injected" rfl,
   (c9_resolvePluginName Option.none Option.none).2.2 (Or.inl rfl) rfl⟩

/-- An observable event of the singleton logger: either the one-time
environment-compatibility warning (a `console.warn` with the given argument
list) or an ordinary console-sink invocation. -/
inductive Emitted where
  | warning (args : List LogValue)
  | console (e : ConsoleEvent)
deriving DecidableEq, Repr

/-- Whether an emitted event is the environment-compatibility warning. -/
def Emitted.isWarning : Emitted → Bool
  | .warning _ => true
  | .console _ => false

namespace Internal

/-- `DEBUGWARNING` of src/lib/log.internal.ts: the fixed Chrome-DevTools
compatibility string. -/
def DEBUGWARNING : String :=
  "Debug output may not be visible unless Chrome DevTools are set to \x27Verbose\x27."

/-- `showDebugWarning` of src/lib/log.internal.ts: if the flag is false
(warning no longer pending) return it unchanged with no output; if the
message level is not debug return the flag unchanged; otherwise write the
warning prefixed with the plugin name via `console.warn` and return false. -/
def showDebugWarning (pending : Bool) (msglvl : LogLevel) (pluginname : String) :
    Bool × List Emitted :=
  if !pending then (pending, [])
  else if msglvl ≠ LogLevel.debug then (pending, [])
  else (false, [Emitted.warning [LogValue.str pluginname, LogValue.str DEBUGWARNING]])

end Internal

/-- One logging call of the singleton logger: the message severity, the
configured level read from the live settings record at call time (it may
have been externally mutated between calls), and the forwarded values. -/
structure EmitCall where
  msglvl : LogLevel
  setlvl : LogLevel
  args : List LogValue
deriving DecidableEq, Repr

/-- Modelled from the spec: the `emit` primitive of the 1.0.2 singleton
logger class, which is not under src/ (only its tests, the changelog and
the src/lib/log.internal.ts helpers it calls are). Per spec section 4.2:
no-op if the gate `isEnabled(severity, settings.level)` fails; otherwise
run the one-time debug warning (threading the flag through the embedded
source function `showDebugWarning`), then dispatch to the console sink with
the display name followed by the values. Returns the new flag and events. -/
def emit (pluginname : String) (pending : Bool) (c : EmitCall) : Bool × List Emitted :=
  if Internal.isEnabled c.msglvl c.setlvl then
    let r := Internal.showDebugWarning pending c.msglvl pluginname
    (r.1, r.2 ++ [Emitted.console ⟨c.msglvl, LogValue.str pluginname :: c.args⟩])
  else (pending, [])

/-- Modelled from the spec: a sequence of logging calls in one process,
threading the debug-warning flag through `emit`, collecting all events. -/
def runEmits (pluginname : String) (pending : Bool) : List EmitCall → Bool × List Emitted
  | [] => (pending, [])
  | c :: cs =>
    let r := emit pluginname pending c
    let rest := runEmits pluginname r.1 cs
    (rest.1, r.2 ++ rest.2)

/-- The warning events of a single emit step, characterized: the warning
fires exactly when the flag is still pending, the message is debug-level
and the gate passes. -/
theorem emit_filter_warning (pluginname : String) (pending : Bool) (c : EmitCall) :
    (emit pluginname pending c).2.filter Emitted.isWarning =
      (if pending ∧ c.msglvl = LogLevel.debug ∧ Internal.isEnabled c.msglvl c.setlvl
       then [Emitted.warning [LogValue.str pluginname, LogValue.str Internal.DEBUGWARNING]]
       else []) := by
  simp only [emit, Internal.showDebugWarning]
  by_cases hg : Internal.isEnabled c.msglvl c.setlvl = true
  · by_cases hp : pending
    · by_cases hd : c.msglvl = LogLevel.debug
      · rw [hd] at hg
        simp [hg, hp, hd, Emitted.isWarning, List.filter_append]
      · simp [hg, hp, hd, Emitted.isWarning, List.filter_append]
    · simp [hg, hp, Emitted.isWarning, List.filter_append]
  · simp only [Bool.not_eq_true] at hg
    simp [hg, Emitted.isWarning]

/-- The flag returned by a single emit step: it stays as it was unless the
warning fired, in which case it becomes (and stays) false. -/
theorem emit_flag (pluginname : String) (pending : Bool) (c : EmitCall) :
    (emit pluginname pending c).1 =
      (pending &&
        !((c.msglvl == LogLevel.debug) && Internal.isEnabled c.msglvl c.setlvl)) := by
  simp only [emit, Internal.showDebugWarning]
  by_cases hg : Internal.isEnabled c.msglvl c.setlvl = true
  · by_cases hp : pending
    · by_cases hd : c.msglvl = LogLevel.debug
      · rw [hd] at hg
        simp [hg, hp, hd]
      · simp [hg, hp, hd]
    · simp [hg, hp]
  · simp only [Bool.not_eq_true] at hg
    simp [hg]

/-- Once the flag is false, no run of calls ever produces a warning. -/
theorem runEmits_false_filter (pluginname : String) (calls : List EmitCall) :
    (runEmits pluginname false calls).1 = false ∧
    (runEmits pluginname false calls).2.filter Emitted.isWarning = [] := by
  induction calls with
  | nil => exact ⟨rfl, rfl⟩
  | cons c cs ih =>
    have hflag := emit_flag pluginname false c
    simp only [Bool.false_and] at hflag
    have hfw := emit_filter_warning pluginname false c
    simp only [false_and, if_false] at hfw
    simp only [runEmits, hflag, List.filter_append, hfw, List.nil_append]
    exact ih

/-- The warnings of any run are either none or exactly the one fixed
warning prefixed with the plugin name. -/
theorem runEmits_filter_warning (pluginname : String) (pending : Bool)
    (calls : List EmitCall) :
    (runEmits pluginname pending calls).2.filter Emitted.isWarning = [] ∨
    (runEmits pluginname pending calls).2.filter Emitted.isWarning =
      [Emitted.warning [LogValue.str pluginname, LogValue.str Internal.DEBUGWARNING]] := by
  induction calls generalizing pending with
  | nil => exact Or.inl rfl
  | cons c cs ih =>
    simp only [runEmits, List.filter_append]
    have hfw := emit_filter_warning pluginname pending c
    by_cases hfire : pending ∧ c.msglvl = LogLevel.debug ∧
        Internal.isEnabled c.msglvl c.setlvl
    · rw [if_pos hfire] at hfw
      have hen : Internal.isEnabled LogLevel.debug c.setlvl = true :=
        hfire.2.1 ▸ hfire.2.2
      have hflag : (emit pluginname pending c).1 = false := by
        rw [emit_flag]
        simp [hfire.1, hfire.2.1, hen]
      rw [hfw, hflag, (runEmits_false_filter pluginname cs).2]
      exact Or.inr rfl
    · rw [if_neg hfire] at hfw
      rw [hfw, List.nil_append]
      exact ih (emit pluginname pending c).1

/-- Claim C6: across any sequence of logging calls threading the flag
through `showDebugWarning`, the environment-compatibility warning (a
console.warn of the fixed Chrome-DevTools string prefixed with the display
name) is emitted at most once; a single step emits it exactly when the flag
is still pending, the message is debug-level and the gate passed; after it
fires the returned flag is false and a false flag yields no warning ever. -/
theorem c6_debug_warning_once (pluginname : String) (pending : Bool)
    (calls : List EmitCall) :
    ((runEmits pluginname pending calls).2.filter Emitted.isWarning = [] ∨
     (runEmits pluginname pending calls).2.filter Emitted.isWarning =
       [Emitted.warning [LogValue.str pluginname, LogValue.str Internal.DEBUGWARNING]]) ∧
    (runEmits pluginname false calls).2.filter Emitted.isWarning = [] ∧
    (∀ c : EmitCall,
       (emit pluginname pending c).2.filter Emitted.isWarning =
         (if pending ∧ c.msglvl = LogLevel.debug ∧ Internal.isEnabled c.msglvl c.setlvl
          then [Emitted.warning [LogValue.str pluginname, LogValue.str Internal.DEBUGWARNING]]
          else []) ∧
       (emit pluginname pending c).1 =
         (pending &&
           !((c.msglvl == LogLevel.debug) && Internal.isEnabled c.msglvl c.setlvl))) :=
  ⟨runEmits_filter_warning pluginname pending calls,
   (runEmits_false_filter pluginname calls).2,
   fun c => ⟨emit_filter_warning pluginname pending c, emit_flag pluginname pending c⟩⟩

namespace LogTs

/-- `isLogLevel` of src/lib/log.ts: membership of a string in `LOG_LEVELS`. -/
def isLogLevel (value : String) : Bool :=
  value ∈ LOG_LEVELS

end LogTs

/-- A `Log` instance as constructed by the src/lib/log.ts constructor: the
name it was bound to and the index of the settings record it references. -/
structure LogInstance where
  pluginname : String
  settingsRef : Nat
deriving DecidableEq, Repr

/-- Process state for src/lib/log.ts initialization: the store of
caller-owned settings records and the list of `Log` instances constructed
so far; an instance's identity is its index in that list. -/
structure InitState where
  settingsStore : List LogSettingsRec
  instances : List LogInstance
deriving DecidableEq, Repr

namespace LogTs

/-- `Log.init` of src/lib/log.ts: validate the supplied settings record's
loglevel, mutating that record in place to "info" when invalid, then
construct a new `Log` instance (`return new Log(pluginname, settings)`)
bound to the supplied name and settings reference, and return its identity. -/
def init (st : InitState) (pluginname : String) (settingsRef : Nat) :
    InitState × Nat :=
  let store :=
    match st.settingsStore[settingsRef]? with
    | some s =>
      if isLogLevel s.loglevel then st.settingsStore
      else st.settingsStore.set settingsRef ⟨"info"⟩
    | Option.none => st.settingsStore
  (⟨store, st.instances ++ [⟨pluginname, settingsRef⟩]⟩, st.instances.length)

end LogTs

/-- Claim C1 fails on the code: `Log.init` of src/lib/log.ts constructs a
fresh instance on every call. Starting from no instance and two settings
records, `init("plugin-A", settings0)` yields instance 0 and a second call
`init("plugin-B", settings1)` yields the distinct instance 1, bound to the
new name "plugin-B" and the new settings reference — not the identical
existing instance with the first call's name and settings, as the claim
(and the repository's own singleton test and changelog entry) state. -/
theorem c1_init_not_singleton :
    (LogTs.init ⟨[⟨"log"⟩, ⟨"debug"⟩], []⟩ "plugin-A" 0).2 = 0 ∧
    (LogTs.init (LogTs.init ⟨[⟨"log"⟩, ⟨"debug"⟩], []⟩ "plugin-A" 0).1 "plugin-B" 1).2 = 1 ∧
    (1 : Nat) ≠ 0 ∧
    (LogTs.init (LogTs.init ⟨[⟨"log"⟩, ⟨"debug"⟩], []⟩ "plugin-A" 0).1 "plugin-B" 1).1.instances
      = [⟨"plugin-A", 0⟩, ⟨"plugin-B", 1⟩] ∧
    ("plugin-B" : String) ≠ "plugin-A" := by
  refine ⟨rfl, rfl, by decide, rfl, by decide⟩

end ObsidianLog
